import Mathlib

/-
Verification development for the projection-engine binding surface of
`storage/sis-gdal` (file `org_apache_sis_storage_gdal_PJ.h`).

The repository ships only the machine-generated JNI header: it fixes the
constant `DIMENSION_MAX = 100` and the native signatures (in particular
that the native `transform` returns `void`).  The engine behind those
declarations (definition parser, projection object, handle registry,
transform engine, error context) is not part of the visible sources, so
it is modelled here from the specification, with exact rational
arithmetic in place of float64.
-/

set_option maxHeartbeats 1000000

attribute [local semireducible] Rat.add Rat.mul Rat.sub Rat.inv

deriving instance DecidableEq for Except

namespace SisGdal

/-- Type classifier of a projection object (spec section 3: variant
Geographic, Projected, Geocentric, Other). -/
inductive PJType where
  | Geographic
  | Projected
  | Geocentric
  | Other
deriving DecidableEq, Repr

/-- Modelled from the spec: the projection kind recognized by the missing
native engine.  The model interprets the geographic form (`longlat` or
`latlong`) and the Mercator projected form (`merc`); other operation names
are rejected by the parser. -/
inductive ProjKind where
  | longlat
  | merc
deriving DecidableEq, Repr

/-- Modelled from the spec: the ProjectionObject of section 3, owning the
verbatim definition string, the ellipsoid (semi-major axis `a`, semi-minor
axis `b`, eccentricity squared `es`), the prime-meridian offset `pm`, the
axis-direction codes, and the horizontal and vertical linear-unit-to-metre
scale factors.  All numeric fields are exact rationals. -/
structure PJ where
  definition : String
  kind : ProjKind
  a : ℚ
  b : ℚ
  es : ℚ
  pm : ℚ
  axisDirs : List Char
  toMetreH : ℚ
  toMetreV : ℚ
deriving DecidableEq, Repr

instance : Inhabited PJ :=
  ⟨{ definition := "", kind := ProjKind.longlat, a := 1, b := 1, es := 0,
     pm := 0, axisDirs := ['e', 'n', 'u'], toMetreH := 1, toMetreV := 1 }⟩

/-- Accessor of the type classifier (native method `getType`). -/
def getType (pj : PJ) : PJType :=
  match pj.kind with
  | ProjKind.longlat => PJType.Geographic
  | ProjKind.merc => PJType.Projected

/-- Accessor of the semi-major axis in metres (native method
`getSemiMajorAxis`). -/
def getSemiMajorAxis (pj : PJ) : ℚ := pj.a

/-- Accessor of the semi-minor axis in metres (native method
`getSemiMinorAxis`). -/
def getSemiMinorAxis (pj : PJ) : ℚ := pj.b

/-- Accessor of the eccentricity squared (native method
`getEccentricitySquared`). -/
def getEccentricitySquared (pj : PJ) : ℚ := pj.es

/-- Accessor of the prime-meridian offset (native method
`getGreenwichLongitude`). -/
def getGreenwichLongitude (pj : PJ) : ℚ := pj.pm

/-- Accessor of the axis direction codes (native method
`getAxisDirections`). -/
def getAxisDirections (pj : PJ) : List Char := pj.axisDirs

/-- Accessor of the linear-unit scale, selecting the vertical or the
horizontal factor (native method `getLinearUnitToMetre`). -/
def getLinearUnitToMetre (pj : PJ) (vertical : Bool) : ℚ :=
  if vertical then pj.toMetreV else pj.toMetreH

/-- Accessor of the verbatim definition string (native method
`getDefinition`). -/
def getDefinition (pj : PJ) : String := pj.definition

/-- Modelled from the spec: `deriveGeographic(projected)` builds the
geographic base object implied by an object, keeping its datum (ellipsoid
axes, eccentricity, prime meridian) and switching the operation to the
plain geographic form. -/
def deriveGeographic (pj : PJ) : PJ :=
  { pj with kind := ProjKind.longlat, toMetreH := 1 }

/- ### Definition parsing (modelled from the spec, section 4.1) -/

/-- Splits a list of characters on spaces; separators are dropped by the
caller via a filter on empty groups. -/
def splitWsAux : List Char → List Char → List (List Char)
  | [], acc => [acc.reverse]
  | c :: cs, acc =>
    if c = ' ' then acc.reverse :: splitWsAux cs []
    else splitWsAux cs (c :: acc)

/-- Modelled from the spec: tokenization of a definition string into
whitespace-separated fragments. -/
def tokenize (s : String) : List (List Char) :=
  (splitWsAux s.data []).filter (fun t => ¬ t.isEmpty)

/-- Modelled from the spec: a token is `+key` or `+key=value`; a token not
beginning with `+`, or with an empty key, is a parse error. -/
def parseToken (tok : List Char) : Except String (String × Option String) :=
  match tok with
  | '+' :: rest =>
    if (rest.takeWhile (fun c => c ≠ '=')).isEmpty then
      Except.error "empty parameter key"
    else
      match rest.dropWhile (fun c => c ≠ '=') with
      | '=' :: vv =>
        Except.ok (String.mk (rest.takeWhile (fun c => c ≠ '=')), some (String.mk vv))
      | _ => Except.ok (String.mk (rest.takeWhile (fun c => c ≠ '=')), none)
  | _ => Except.error "token does not begin with +"

/-- A malformed definition token in the sense of the spec: the token
does not begin with the `+` prefix, or its parameter key is empty, or it
is the stray `+proj` fragment carrying no operation. -/
def malformedToken (tok : List Char) : Prop :=
  tok.headD ' ' ≠ '+' ∨
  (tok.drop 1).takeWhile (fun c => c ≠ '=') = [] ∨
  tok = '+' :: "proj".data

instance (tok : List Char) : Decidable (malformedToken tok) :=
  inferInstanceAs
    (Decidable (tok.headD ' ' ≠ '+' ∨
      (tok.drop 1).takeWhile (fun c => c ≠ '=') = [] ∨
      tok = '+' :: "proj".data))

/-- Accumulates the value of a digit sequence. -/
def digitsValAux : List Char → Nat → Option Nat
  | [], acc => some acc
  | c :: cs, acc =>
    if c.isDigit then digitsValAux cs (10 * acc + (c.toNat - 48)) else none

/-- Value of a nonempty digit sequence, `none` on any other input. -/
def digitsVal (l : List Char) : Option Nat :=
  match l with
  | [] => none
  | _ => digitsValAux l 0

/-- Parses an unsigned decimal numeral, with an optional fractional part,
into an exact rational. -/
def parseQPos (cs : List Char) : Option ℚ :=
  let ip := cs.takeWhile (fun c => c ≠ '.')
  let rest := cs.dropWhile (fun c => c ≠ '.')
  match rest with
  | [] => (digitsVal ip).map (fun n => (n : ℚ))
  | '.' :: fp =>
    match digitsVal ip, digitsVal fp with
    | some n, some f => some ((n : ℚ) + (f : ℚ) / (10 : ℚ) ^ fp.length)
    | _, _ => none
  | _ => none

/-- Parses a signed decimal numeral into an exact rational. -/
def parseQ (s : String) : Option ℚ :=
  match s.data with
  | '-' :: rest => (parseQPos rest).map (fun q => -q)
  | cs => parseQPos cs

/-- Modelled from the spec: the raw recognized parameters gathered while
scanning the token list.  Unrecognized keys are preserved in the verbatim
definition string but are not semantically interpreted. -/
structure RawP where
  proj : Option String := none
  datum : Option String := none
  aOpt : Option ℚ := none
  bOpt : Option ℚ := none
  rfOpt : Option ℚ := none
  units : Option String := none
  vunits : Option String := none
  pmOpt : Option ℚ := none
  axisOpt : Option String := none
deriving Repr

/-- Modelled from the spec: interpretation of one recognized `key=value`
token.  A `+proj` token with no operation, an unparseable numeric value,
or a missing datum name is a parse error with a human-readable message. -/
def applyKV (r : RawP) (k : String) (v : Option String) : Except String RawP :=
  if k = "proj" then
    match v with
    | none => Except.error "missing projection operation"
    | some pv => Except.ok { r with proj := some pv }
  else if k = "datum" ∨ k = "ellps" then
    match v with
    | none => Except.error "missing datum name"
    | some dv => Except.ok { r with datum := some dv }
  else if k = "a" then
    match v.bind parseQ with
    | none => Except.error "invalid number for semi-major axis"
    | some q => Except.ok { r with aOpt := some q }
  else if k = "b" then
    match v.bind parseQ with
    | none => Except.error "invalid number for semi-minor axis"
    | some q => Except.ok { r with bOpt := some q }
  else if k = "rf" then
    match v.bind parseQ with
    | none => Except.error "invalid number for inverse flattening"
    | some q => Except.ok { r with rfOpt := some q }
  else if k = "units" then
    match v with
    | none => Except.error "missing unit name"
    | some u => Except.ok { r with units := some u }
  else if k = "vunits" then
    match v with
    | none => Except.error "missing vertical unit name"
    | some u => Except.ok { r with vunits := some u }
  else if k = "pm" then
    match v.bind parseQ with
    | none => Except.error "invalid number for prime meridian"
    | some q => Except.ok { r with pmOpt := some q }
  else if k = "axis" then
    match v with
    | none => Except.error "missing axis orientation"
    | some ax => Except.ok { r with axisOpt := some ax }
  else
    Except.ok r

/-- Folds the token list into the raw parameter record, stopping at the
first malformed token. -/
def foldParams : RawP → List (List Char) → Except String RawP
  | r, [] => Except.ok r
  | r, tok :: rest =>
    match parseToken tok with
    | Except.error e => Except.error e
    | Except.ok (k, v) =>
      match applyKV r k v with
      | Except.error e => Except.error e
      | Except.ok r2 => foldParams r2 rest

/-- Modelled from the spec: the known datum table of the engine.  Returns
the semi-major axis and the inverse flattening. -/
def datumParams (d : String) : Option (ℚ × ℚ) :=
  if d = "WGS84" then some (6378137, 298257223563 / 1000000000) else none

/-- Modelled from the spec: linear unit names and their metre scale. -/
def unitScale (u : String) : Option ℚ :=
  if u = "m" then some 1
  else if u = "km" then some 1000
  else if u = "ft" then some (381 / 1250)
  else none

/-- Resolves the projection operation name to its kind. -/
def resolveKind (pv : String) : Except String ProjKind :=
  if pv = "longlat" ∨ pv = "latlong" then Except.ok ProjKind.longlat
  else if pv = "merc" then Except.ok ProjKind.merc
  else Except.error ("unknown projection: " ++ pv)

/-- Resolves the datum name; with no datum given the engine default
(WGS84) applies. -/
def resolveDatum (d : Option String) : Except String (ℚ × ℚ) :=
  match d with
  | none => Except.ok (6378137, 298257223563 / 1000000000)
  | some dv =>
    match datumParams dv with
    | some p => Except.ok p
    | none => Except.error ("unknown datum: " ++ dv)

/-- Resolves the horizontal unit name, defaulting to metres. -/
def resolveUnit (u : Option String) : Except String ℚ :=
  match u with
  | none => Except.ok 1
  | some uv =>
    match unitScale uv with
    | some s => Except.ok s
    | none => Except.error ("unknown unit: " ++ uv)

/-- Resolves the vertical unit name, defaulting to the horizontal
scale. -/
def resolveUnitV (u : Option String) (dflt : ℚ) : Except String ℚ :=
  match u with
  | none => Except.ok dflt
  | some uv =>
    match unitScale uv with
    | some s => Except.ok s
    | none => Except.error ("unknown vertical unit: " ++ uv)

/-- Modelled from the spec: final construction of the projection object.
The ellipsoid is validated at construction time — a non-positive or
inconsistent axis pair is a parse error, and the derived eccentricity
squared is checked against its invariant `0 ≤ es < 1` — so that the
accessors never fail. -/
def mkPJ (defn : String) (kind : ProjKind) (a b pm : ℚ) (ax : String)
    (kH kV : ℚ) : Except String PJ :=
  if a ≤ 0 then Except.error "semi-major axis is not positive"
  else if b ≤ 0 then Except.error "semi-minor axis is not positive"
  else if a < b then Except.error "semi-minor axis exceeds semi-major axis"
  else if 0 ≤ (a * a - b * b) / (a * a) ∧ (a * a - b * b) / (a * a) < 1 then
    Except.ok { definition := defn, kind := kind, a := a, b := b,
                es := (a * a - b * b) / (a * a),
                pm := pm, axisDirs := ax.data, toMetreH := kH, toMetreV := kV }
  else Except.error "inconsistent ellipsoid eccentricity"

/-- Modelled from the spec: assembles the raw parameters into a validated
projection object. -/
def buildPJ (defn : String) (r : RawP) : Except String PJ :=
  match r.proj with
  | none => Except.error "projection not specified"
  | some pv =>
    match resolveKind pv with
    | Except.error e => Except.error e
    | Except.ok kind =>
      match resolveDatum r.datum with
      | Except.error e => Except.error e
      | Except.ok (da, drf) =>
        match resolveUnit r.units with
        | Except.error e => Except.error e
        | Except.ok kH =>
          match resolveUnitV r.vunits kH with
          | Except.error e => Except.error e
          | Except.ok kV =>
            let a := r.aOpt.getD da
            let b := r.bOpt.getD (a * (1 - 1 / (r.rfOpt.getD drf)))
            mkPJ defn kind a b (r.pmOpt.getD 0) (r.axisOpt.getD "enu") kH kV

/-- Modelled from the spec: `parse(definitionText) -> ProjectionObject |
ParseError` (the native `allocatePJ` implementation is not among the
visible sources).  Parsing is pure; on failure a human-readable
diagnostic is returned and no object is produced. -/
def parse (s : String) : Except String PJ :=
  match foldParams {} (tokenize s) with
  | Except.error e => Except.error e
  | Except.ok r => buildPJ s r

/- ### Handle registry and error context (modelled from the spec,
sections 4.3 and 4.5) -/

/-- Modelled from the spec: one registry slot, owning the projection
object and its error context (the last diagnostic recorded for the
handle; the empty string is the never-recorded sentinel). -/
structure Entry where
  pj : PJ
  err : String
deriving DecidableEq, Repr

/-- Modelled from the spec: the handle table, mapping opaque handle
values to owned entries.  Handle values are issued monotonically and a
freed value is never reused. -/
structure Table where
  next : Nat
  entries : List (Nat × Entry)
deriving DecidableEq, Repr

/-- The registry state before any allocation. -/
def emptyTable : Table := { next := 0, entries := [] }

/-- First entry registered under a handle value. -/
def lookupEntry : List (Nat × Entry) → Nat → Option Entry
  | [], _ => none
  | p :: r, h => if p.1 = h then some p.2 else lookupEntry r h

/-- The projection object behind a live handle. -/
def lookupPJ (t : Table) (h : Nat) : Option PJ :=
  (lookupEntry t.entries h).map Entry.pj

/-- Modelled from the spec: `getLastError(handle)` returns the most
recent diagnostic recorded for the handle, or the empty sentinel string
if none has ever been recorded. -/
def getLastError (t : Table) (h : Nat) : String :=
  match lookupEntry t.entries h with
  | some e => e.err
  | none => ""

/-- Modelled from the spec: `allocate(definitionText)` parses and
registers a new projection object behind a fresh handle; on a parse
error the table is unchanged and no handle is produced. -/
def allocate (t : Table) (s : String) : Table × Except String Nat :=
  match parse s with
  | Except.error e => (t, Except.error e)
  | Except.ok pj =>
    ({ next := t.next + 1,
       entries := (t.next, { pj := pj, err := "" }) :: t.entries },
     Except.ok t.next)

/-- Modelled from the spec: `allocateGeographic(sourceHandle)` derives
the geographic counterpart of the object behind the handle and registers
it behind a fresh handle; an unknown or released handle is an error. -/
def allocateGeographic (t : Table) (h : Nat) : Table × Except String Nat :=
  match lookupEntry t.entries h with
  | none => (t, Except.error "invalid or released handle")
  | some e =>
    ({ next := t.next + 1,
       entries := (t.next, { pj := deriveGeographic e.pj, err := "" }) :: t.entries },
     Except.ok t.next)

/-- Removes every entry registered under a handle value. -/
def removeHandle : List (Nat × Entry) → Nat → List (Nat × Entry)
  | [], _ => []
  | p :: r, h => if p.1 = h then removeHandle r h else p :: removeHandle r h

/-- Modelled from the spec: `release(handle)` idempotently removes the
entry; releasing an already-released or unknown handle is a no-op, and
the call never fails (it is a total function). -/
def release (t : Table) (h : Nat) : Table :=
  { t with entries := removeHandle t.entries h }

/-- Overwrites the error context of the first entry registered under a
handle value. -/
def setErr : List (Nat × Entry) → Nat → String → List (Nat × Entry)
  | [], _, _ => []
  | p :: r, h, m =>
    if p.1 = h then (p.1, { p.2 with err := m }) :: r
    else p :: setErr r h m

/-- Records a diagnostic into the error context of a handle. -/
def recordErr (t : Table) (h : Nat) (m : String) : Table :=
  { t with entries := setErr t.entries h m }

/- ### Transform engine (modelled from the spec, section 4.4) -/

/-- The fixed dimension ceiling, from the header constant
`org_apache_sis_storage_gdal_PJ_DIMENSION_MAX` (value `100L`). -/
def DIMENSION_MAX : Nat := 100

/-- Modelled from the spec: the sentinel "no data" value substituted for
a tuple whose transform is mathematically undefined (the engine's
equivalent of an infinite float64). -/
def sentinel : ℚ := 10 ^ 9

/-- Modelled from the spec: the diagnostic recorded in the error context
of the source handle when a tuple falls outside the projection's valid
domain. -/
def domainErrorMessage : String := "latitude or longitude exceeded limits"

/-- Modelled from the spec: status returned by the batched transform.
The spec requires partial success to be communicated through this value
rather than silently swallowed; the model's documented policy is to
substitute the sentinel for each failing tuple, continue the batch, and
return `domainError` whenever at least one tuple failed. -/
inductive Status where
  | success
  | badDimension
  | outOfBounds
  | invalidHandle
  | domainError
deriving DecidableEq, Repr

/-- Modelled from the spec: conversion of one native tuple to the
absolute geographic frame (longitude and latitude in degrees, height in
metres), using the object's ellipsoid, prime meridian and unit scales.
The Mercator northing uses the exact invertible map
`ym = a * lat / (90 - |lat|)`, standing in for the transcendental
Mercator formula of the missing native engine. -/
def toGeo (pj : PJ) (x y h : ℚ) : ℚ × ℚ × ℚ :=
  match pj.kind with
  | ProjKind.longlat => (x + pj.pm, y, h * pj.toMetreV)
  | ProjKind.merc =>
    let ym := y * pj.toMetreH
    (x * pj.toMetreH / pj.a + pj.pm, 90 * ym / (pj.a + |ym|), h * pj.toMetreV)

/-- Modelled from the spec: conversion of one absolute geographic tuple
to an object's native frame, the inverse of `toGeo`.  A latitude outside
the open Mercator domain `|lat| < 90` is a domain error. -/
def fromGeo (pj : PJ) (lon lat hm : ℚ) : Option (ℚ × ℚ × ℚ) :=
  match pj.kind with
  | ProjKind.longlat => some (lon - pj.pm, lat, hm / pj.toMetreV)
  | ProjKind.merc =>
    if |lat| < 90 then
      some ((lon - pj.pm) * pj.a / pj.toMetreH,
            pj.a * lat / (90 - |lat|) / pj.toMetreH,
            hm / pj.toMetreV)
    else none

/-- Modelled from the spec: transform of one coordinate tuple from the
source object's native frame to the target object's, through the
geographic intermediate. -/
def tupTrans (A B : PJ) (x y h : ℚ) : Option (ℚ × ℚ × ℚ) :=
  let g := toGeo A x y h
  fromGeo B g.1 g.2.1 g.2.2

/-- Writes a run of values into a buffer starting at a position, leaving
the remainder unchanged. -/
def setSlice : List ℚ → Nat → List ℚ → List ℚ
  | [], _, _ => []
  | b :: bs, 0, [] => b :: bs
  | _ :: bs, 0, v :: vs => v :: setSlice bs 0 vs
  | b :: bs, n + 1, vs => b :: setSlice bs n vs

/-- Modelled from the spec: transform of one buffered tuple of
`d` values.  The first two values are the horizontal coordinates, the
third (when `d ≥ 3`) the vertical one; further values pass through
untouched.  On a domain failure the transformed positions receive the
sentinel and the flag is `false`. -/
def applyTuple (A B : PJ) (d : Nat) (tup : List ℚ) : Bool × List ℚ :=
  let x := tup.headD 0
  let y := (tup.drop 1).headD 0
  let z := (tup.drop 2).headD 0
  match tupTrans A B x y z with
  | some (x2, y2, z2) =>
    (true, ([x2, y2, z2].take (min d 3)) ++ tup.drop (min d 3))
  | none =>
    (false, List.replicate (min d 3) sentinel ++ tup.drop (min d 3))

/-- Modelled from the spec: the batch loop, transforming `cnt`
consecutive tuples of `d` values starting at `pos`, in place.  Returns
the mutated buffer and whether any tuple failed. -/
def runTuples (A B : PJ) (d : Nat) : List ℚ → Nat → Nat → List ℚ × Bool
  | buf, _, 0 => (buf, false)
  | buf, pos, c + 1 =>
    let tup := (buf.drop pos).take d
    let r := applyTuple A B d tup
    let buf2 := setSlice buf pos r.2
    let rest := runTuples A B d buf2 (pos + d) c
    (rest.1, (!r.1) || rest.2)

/-- Modelled from the spec: the batched
`transform(source, target, dimension, buffer, offset, count) -> Status`
operation of the engine.  A dimension of `0` or above `DIMENSION_MAX`
is rejected with no effect on the buffer or the table; likewise an
unknown handle or an out-of-bounds window.  A domain failure of at least
one tuple is reported as `domainError` and recorded in the source
handle's error context; a fully successful batch leaves every error
context unchanged. -/
def transformOp (t : Table) (hs ht : Nat) (d : Nat) (buf : List ℚ)
    (off cnt : Nat) : Table × Status × List ℚ :=
  if d = 0 ∨ DIMENSION_MAX < d then (t, Status.badDimension, buf)
  else
    match lookupEntry t.entries hs, lookupEntry t.entries ht with
    | some eA, some eB =>
      if buf.length < off + cnt * d then (t, Status.outOfBounds, buf)
      else
        let r := runTuples eA.pj eB.pj d buf off cnt
        if r.2 then (recordErr t hs domainErrorMessage, Status.domainError, r.1)
        else (t, Status.success, r.1)
    | _, _ => (t, Status.invalidHandle, buf)

/- ### Registry operation sequences -/

/-- One externally available operation on the registry state, used to
quantify over every reachable state. -/
inductive Op where
  | alloc (s : String)
  | allocGeo (h : Nat)
  | rel (h : Nat)
  | trans (hs ht d : Nat) (buf : List ℚ) (off cnt : Nat)

/-- State reached after applying one operation. -/
def applyOp (t : Table) : Op → Table
  | Op.alloc s => (allocate t s).1
  | Op.allocGeo h => (allocateGeographic t h).1
  | Op.rel h => release t h
  | Op.trans hs ht d buf off cnt => (transformOp t hs ht d buf off cnt).1

/-- State reached from the empty registry by a sequence of
operations. -/
def runOps (ops : List Op) : Table :=
  ops.foldl applyOp emptyTable

/-- Non-degenerate geometric parameters of a projection object: positive
semi-major axis, eccentricity squared inside `[0, 1)`, positive unit
scales. -/
def wellFormed (pj : PJ) : Prop :=
  0 < pj.a ∧ 0 ≤ pj.es ∧ pj.es < 1 ∧ 0 < pj.toMetreH ∧ 0 < pj.toMetreV

instance (pj : PJ) : Decidable (wellFormed pj) :=
  inferInstanceAs
    (Decidable (0 < pj.a ∧ 0 ≤ pj.es ∧ pj.es < 1 ∧ 0 < pj.toMetreH ∧ 0 < pj.toMetreV))

/- ### The native binding surface, from the header -/

/-- The JNI descriptor of the native `transform` method, transcribed
verbatim from the header comment of
`Java_org_apache_sis_storage_gdal_PJ_transform`. -/
def transformJniSignature : String := "(Lorg/apache/sis/storage/gdal/PJ;I[DII)V"

/-- The characters following the first closing parenthesis. -/
def afterClose : List Char → List Char
  | [] => []
  | ')' :: r => r
  | _ :: r => afterClose r

/-- The characters following the first opening parenthesis. -/
def afterOpen : List Char → List Char
  | [] => []
  | '(' :: r => r
  | _ :: r => afterOpen r

/-- The characters preceding the first closing parenthesis. -/
def beforeClose : List Char → List Char
  | [] => []
  | ')' :: _ => []
  | c :: r => c :: beforeClose r

/-- Return-type descriptor of a JNI method signature. -/
def returnDescriptor (sig : String) : String :=
  String.mk (afterClose sig.data)

/-- Argument-list descriptor of a JNI method signature. -/
def argsDescriptor (sig : String) : String :=
  String.mk (beforeClose (afterOpen sig.data))

/-- The five argument descriptors of the native `transform` method:
target object, dimension, coordinate array, offset, count. -/
def transformParamTypes : List String :=
  ["Lorg/apache/sis/storage/gdal/PJ;", "I", "[D", "I", "I"]

/- ### Concrete scenario inputs -/

/-- The geographic WGS84 definition string of the spec scenarios. -/
def defLonglat : String := "+proj=longlat +datum=WGS84"

/-- The Mercator WGS84 definition string of the spec scenarios. -/
def defMerc : String := "+proj=merc +datum=WGS84"

/-- The projection object parsed from a definition string, defaulting on
a parse error. -/
def pjOf (s : String) : PJ :=
  match parse s with
  | Except.ok pj => pj
  | Except.error _ => default

/- ### Inversion of the native-to-geographic conversion -/

theorem aux_phi_abs (a ym : ℚ) (ha : 0 < a) :
    |90 * ym / (a + |ym|)| = 90 * |ym| / (a + |ym|) := by
  have h1 : (0:ℚ) < a + |ym| := by positivity
  rw [abs_div, abs_mul, abs_of_pos h1, abs_of_pos (by norm_num : (0:ℚ) < 90)]

theorem aux_phi_lt (a ym : ℚ) (ha : 0 < a) : |90 * ym / (a + |ym|)| < 90 := by
  have h1 : (0:ℚ) < a + |ym| := by positivity
  rw [aux_phi_abs a ym ha, div_lt_iff₀ h1]
  nlinarith [abs_nonneg ym]

theorem aux_y_inv (a ym : ℚ) (ha : 0 < a) :
    a * (90 * ym / (a + |ym|)) / (90 - |90 * ym / (a + |ym|)|) = ym := by
  have h1 : (0:ℚ) < a + |ym| := by positivity
  rw [aux_phi_abs a ym ha]
  have h2 : 90 - 90 * |ym| / (a + |ym|) = 90 * a / (a + |ym|) := by
    field_simp
    ring
  rw [h2]
  field_simp
  ring

theorem aux_phi_inv (a p : ℚ) (ha : 0 < a) (hp : |p| < 90) :
    90 * (a * p / (90 - |p|)) / (a + |a * p / (90 - |p|)|) = p := by
  have h1 : (0:ℚ) < 90 - |p| := by linarith
  have h2 : |a * p / (90 - |p|)| = a * |p| / (90 - |p|) := by
    rw [abs_div, abs_mul, abs_of_pos ha, abs_of_pos h1]
  rw [h2]
  have h3 : a + a * |p| / (90 - |p|) = 90 * a / (90 - |p|) := by
    field_simp
    ring
  rw [h3]
  field_simp
  ring

/-- For a well-formed object, converting a native tuple to the
geographic frame and back is the identity (and in particular the
geographic image is inside the object's own valid domain). -/
theorem fromGeo_toGeo (pj : PJ) (hw : wellFormed pj) (x y h : ℚ) :
    fromGeo pj (toGeo pj x y h).1 (toGeo pj x y h).2.1 (toGeo pj x y h).2.2
      = some (x, y, h) := by
  obtain ⟨hA, hes0, hes1, hH, hV⟩ := hw
  cases hk : pj.kind with
  | longlat =>
    simp only [toGeo, fromGeo, hk]
    rw [add_sub_cancel_right, mul_div_cancel_right₀ _ (ne_of_gt hV)]
  | merc =>
    simp only [toGeo, fromGeo, hk]
    rw [if_pos (aux_phi_lt pj.a (y * pj.toMetreH) hA)]
    rw [aux_y_inv pj.a (y * pj.toMetreH) hA]
    rw [add_sub_cancel_right]
    simp only [Option.some.injEq, Prod.mk.injEq]
    refine ⟨?_, ?_, ?_⟩
    · field_simp
    · field_simp
    · field_simp

/-- For a well-formed object, a successful conversion from the
geographic frame to the native one converts back to the very same
geographic tuple. -/
theorem toGeo_fromGeo (pj : PJ) (hw : wellFormed pj) (lon lat hm : ℚ)
    (out : ℚ × ℚ × ℚ) (hout : fromGeo pj lon lat hm = some out) :
    toGeo pj out.1 out.2.1 out.2.2 = (lon, lat, hm) := by
  obtain ⟨hA, hes0, hes1, hH, hV⟩ := hw
  cases hk : pj.kind with
  | longlat =>
    rw [fromGeo, hk] at hout
    simp only [Option.some.injEq] at hout
    subst hout
    simp only [toGeo, hk]
    rw [sub_add_cancel, div_mul_cancel₀ _ (ne_of_gt hV)]
  | merc =>
    rw [fromGeo, hk] at hout
    by_cases hlat : |lat| < 90
    · rw [if_pos hlat] at hout
      simp only [Option.some.injEq] at hout
      subst hout
      simp only [toGeo, hk]
      have hcan : ∀ q : ℚ, q / pj.toMetreH * pj.toMetreH = q :=
        fun q => div_mul_cancel₀ q (ne_of_gt hH)
      simp only [hcan]
      rw [aux_phi_inv pj.a lat hA hlat]
      simp only [Prod.mk.injEq]
      exact ⟨by field_simp, trivial, by field_simp⟩
    · rw [if_neg hlat] at hout
      exact absurd hout (by simp)

/- ### C1: round trip of the batched transform -/

/-- Registry holding the geographic WGS84 object behind handle 0 and the
Mercator WGS84 object behind handle 1. -/
def twoTable : Table := (allocate (allocate emptyTable defLonglat).1 defMerc).1

/-- Buffer after transforming the single tuple `(0, 100)` from the
geographic object to the Mercator object: latitude 100 is outside the
Mercator domain, so the tuple is replaced by the sentinel. -/
def ceLeg1 : List ℚ := (transformOp twoTable 0 1 2 [0, 100] 0 1).2.2

/-- Buffer after transforming the first leg's result back from the
Mercator object to the geographic one. -/
def ceLeg2 : List ℚ :=
  (transformOp (transformOp twoTable 0 1 2 [0, 100] 0 1).1 1 0 2 ceLeg1 0 1).2.2

/-- C1: the claim as stated is false on the modelled engine: with the
non-degenerate WGS84 geographic and Mercator objects, the tuple
`(0, 100)` does not round-trip within `1e-7` — its latitude is outside
the Mercator domain, the engine substitutes the sentinel, and the
returned coordinate ends up more than 10 degrees away from the
original. -/
theorem C1_round_trip_counterexample :
    (allocate emptyTable defLonglat).2 = Except.ok 0 ∧
    (allocate (allocate emptyTable defLonglat).1 defMerc).2 = Except.ok 1 ∧
    wellFormed (pjOf defLonglat) ∧ wellFormed (pjOf defMerc) ∧
    ¬ (|ceLeg2.getD 1 0 - 100| ≤ 1 / 10000000) := by
  decide

/-- C1 (amended): for every pair of projection objects with
non-degenerate parameters and every coordinate tuple inside the valid
domain of the target projection (that is, whose forward transform
succeeds), transforming the tuple from A to B and transforming the
result back from B to A reproduces the original coordinate within
`1e-7` in native units — exactly, in the exact-arithmetic model. -/
theorem C1_round_trip (A B : PJ) (x y h x2 y2 z2 : ℚ)
    (hA : wellFormed A) (hB : wellFormed B)
    (hT : tupTrans A B x y h = some (x2, y2, z2)) :
    ∃ x3 y3 z3, tupTrans B A x2 y2 z2 = some (x3, y3, z3) ∧
      |x3 - x| ≤ 1 / 10000000 ∧ |y3 - y| ≤ 1 / 10000000 ∧
      |z3 - h| ≤ 1 / 10000000 := by
  refine ⟨x, y, h, ?_, by simp, by simp, by simp⟩
  have hT2 : fromGeo B (toGeo A x y h).1 (toGeo A x y h).2.1
      (toGeo A x y h).2.2 = some (x2, y2, z2) := hT
  have hB2 := toGeo_fromGeo B hB (toGeo A x y h).1 (toGeo A x y h).2.1
    (toGeo A x y h).2.2 (x2, y2, z2) hT2
  show fromGeo A (toGeo B x2 y2 z2).1 (toGeo B x2 y2 z2).2.1
      (toGeo B x2 y2 z2).2.2 = some (x, y, h)
  rw [hB2]
  exact fromGeo_toGeo A hA x y h

/-- C1 witness: the round-trip theorem applied to the concrete WGS84
geographic and Mercator objects at the tuple `(10, 20, 0)`. -/
theorem C1_round_trip_witness :
    ∃ x3 y3 z3,
      tupTrans (pjOf defMerc) (pjOf defLonglat) 63781370 (12756274 / 7) 0
        = some (x3, y3, z3) ∧
      |x3 - 10| ≤ 1 / 10000000 ∧ |y3 - 20| ≤ 1 / 10000000 ∧
      |z3 - 0| ≤ 1 / 10000000 :=
  C1_round_trip (pjOf defLonglat) (pjOf defMerc) 10 20 0 63781370
    (12756274 / 7) 0 (by decide) (by decide) (by decide)

/- ### Registry lemmas -/

theorem lookupEntry_mem (l : List (Nat × Entry)) (h : Nat) (e : Entry)
    (hl : lookupEntry l h = some e) : (h, e) ∈ l := by
  induction l with
  | nil => exact absurd hl (by simp [lookupEntry])
  | cons p r ih =>
    rw [lookupEntry] at hl
    by_cases hp : p.1 = h
    · rw [if_pos hp] at hl
      have he : p.2 = e := by simpa using hl
      have : (h, e) = p := by rw [← hp, ← he]
      rw [this]
      exact List.mem_cons_self p r
    · rw [if_neg hp] at hl
      exact List.mem_cons_of_mem p (ih hl)

theorem removeHandle_idem (l : List (Nat × Entry)) (h : Nat) :
    removeHandle (removeHandle l h) h = removeHandle l h := by
  induction l with
  | nil => rfl
  | cons p r ih =>
    by_cases hp : p.1 = h
    · simp [removeHandle, hp, ih]
    · simp [removeHandle, hp, ih]

theorem removeHandle_of_lookup_none (l : List (Nat × Entry)) (h : Nat)
    (hl : lookupEntry l h = none) : removeHandle l h = l := by
  induction l with
  | nil => rfl
  | cons p r ih =>
    rw [lookupEntry] at hl
    by_cases hp : p.1 = h
    · rw [if_pos hp] at hl
      exact absurd hl (by simp)
    · rw [if_neg hp] at hl
      rw [removeHandle, if_neg hp, ih hl]

theorem lookupEntry_removeHandle (l : List (Nat × Entry)) (h h2 : Nat)
    (hne : h2 ≠ h) :
    lookupEntry (removeHandle l h) h2 = lookupEntry l h2 := by
  induction l with
  | nil => rfl
  | cons p r ih =>
    by_cases hp : p.1 = h
    · have hp2 : p.1 ≠ h2 := by rw [hp]; exact fun hh => hne hh.symm
      rw [removeHandle, if_pos hp, ih, lookupEntry, if_neg hp2]
    · rw [removeHandle, if_neg hp, lookupEntry, lookupEntry]
      by_cases hq : p.1 = h2
      · rw [if_pos hq, if_pos hq]
      · rw [if_neg hq, if_neg hq, ih]

theorem removeHandle_subset (l : List (Nat × Entry)) (h : Nat) (p : Nat × Entry)
    (hp : p ∈ removeHandle l h) : p ∈ l := by
  induction l with
  | nil => exact absurd hp (by simp [removeHandle])
  | cons q r ih =>
    rw [removeHandle] at hp
    by_cases hq : q.1 = h
    · rw [if_pos hq] at hp
      exact List.mem_cons_of_mem q (ih hp)
    · rw [if_neg hq] at hp
      rcases List.mem_cons.mp hp with h1 | h1
      · rw [h1]; exact List.mem_cons_self q r
      · exact List.mem_cons_of_mem q (ih h1)

/- ### C4: release is idempotent and frames other handles -/

/-- C4: `release` is idempotent — releasing a handle twice is the same
as releasing it once, releasing an unknown or already-released handle is
a no-op that never fails (`release` is a total function), and every
other live handle's full handle-table entry — the owned projection
object together with its error context — is unchanged by any release
call. -/
theorem C4_release_idempotent (t : Table) (h : Nat) :
    release (release t h) h = release t h ∧
    (lookupPJ t h = none → release t h = t) ∧
    (∀ h2, h2 ≠ h →
      lookupEntry (release t h).entries h2 = lookupEntry t.entries h2) := by
  refine ⟨?_, ?_, ?_⟩
  · simp [release, removeHandle_idem]
  · intro hn
    have hn2 : lookupEntry t.entries h = none := by
      rw [lookupPJ] at hn
      cases hx : lookupEntry t.entries h with
      | none => rfl
      | some e => rw [hx] at hn; exact absurd hn (by simp)
    simp [release, removeHandle_of_lookup_none t.entries h hn2]
  · intro h2 hne
    show lookupEntry (removeHandle t.entries h) h2 = lookupEntry t.entries h2
    exact lookupEntry_removeHandle t.entries h h2 hne

/-- C4 witness: releasing the unknown handle 5 of the two-handle registry
twice, and checking that handle 0's full entry is untouched. -/
theorem C4_release_idempotent_witness :
    release (release twoTable 5) 5 = release twoTable 5 ∧
    release twoTable 5 = twoTable ∧
    lookupEntry (release twoTable 5).entries 0 = lookupEntry twoTable.entries 0 :=
  ⟨(C4_release_idempotent twoTable 5).1,
   (C4_release_idempotent twoTable 5).2.1 (by decide),
   (C4_release_idempotent twoTable 5).2.2 0 (by decide)⟩

/- ### C3: dimension bounds of the batched transform -/

/-- C3: a `transform` call with `dimension = 0` or
`dimension > DIMENSION_MAX` (the fixed ceiling 100 of the header) is
rejected with the `badDimension` status, and both the coordinate buffer
and the registry are left completely unchanged. -/
theorem C3_dimension_rejected (t : Table) (hs ht d : Nat) (buf : List ℚ)
    (off cnt : Nat) (hd : d = 0 ∨ DIMENSION_MAX < d) :
    transformOp t hs ht d buf off cnt = (t, Status.badDimension, buf) := by
  rw [transformOp, if_pos hd]

/-- C3 witness: the boundary theorem applied at dimension 0 and at
dimension 101 on a concrete registry and buffer. -/
theorem C3_dimension_rejected_witness :
    transformOp twoTable 0 1 0 [1, 2] 0 1 = (twoTable, Status.badDimension, [1, 2]) ∧
    transformOp twoTable 0 1 101 [1, 2] 0 1 = (twoTable, Status.badDimension, [1, 2]) :=
  ⟨C3_dimension_rejected twoTable 0 1 0 [1, 2] 0 1 (Or.inl rfl),
   C3_dimension_rejected twoTable 0 1 101 [1, 2] 0 1 (Or.inr (by decide))⟩

/- ### C5: parse errors allocate nothing -/

theorem parseToken_error_nonempty (tok : List Char) (e : String)
    (h : parseToken tok = Except.error e) : e ≠ "" := by
  rw [parseToken.eq_def] at h
  repeat' split at h
  all_goals first
  | (injection h with he; subst he; decide)
  | simp at h

theorem applyKV_error_nonempty (r : RawP) (k : String) (v : Option String)
    (e : String) (h : applyKV r k v = Except.error e) : e ≠ "" := by
  rw [applyKV.eq_def] at h
  repeat' split at h
  all_goals first
  | (injection h with he; subst he; decide)
  | simp at h

theorem foldParams_error_nonempty :
    ∀ (toks : List (List Char)) (r : RawP) (e : String),
      foldParams r toks = Except.error e → e ≠ "" := by
  intro toks
  induction toks with
  | nil =>
    intro r e h
    rw [foldParams] at h
    exact absurd h (by simp)
  | cons t0 rest ih =>
    intro r e h
    rw [foldParams] at h
    cases hpt : parseToken t0 with
    | error e2 =>
      rw [hpt] at h
      have he : e2 = e := by simpa using h
      rw [← he]
      exact parseToken_error_nonempty t0 e2 hpt
    | ok kv =>
      rcases kv with ⟨k, v⟩
      simp only [hpt] at h
      cases hak : applyKV r k v with
      | error e2 =>
        simp only [hak] at h
        have he : e2 = e := by simpa using h
        rw [← he]
        exact applyKV_error_nonempty r k v e2 hak
      | ok r2 =>
        simp only [hak] at h
        exact ih r2 e h

theorem append_ne_empty (p q : String) (hp : p.length ≠ 0) : p ++ q ≠ "" := by
  intro h
  have hl := congrArg String.length h
  rw [String.length_append] at hl
  simp at hl
  omega

theorem resolveKind_error_nonempty {pv e : String}
    (h : resolveKind pv = Except.error e) : e ≠ "" := by
  rw [resolveKind.eq_def] at h
  repeat' split at h
  all_goals first
  | (injection h with he; rw [← he]; exact append_ne_empty _ _ (by decide))
  | simp at h

theorem resolveDatum_error_nonempty {d : Option String} {e : String}
    (h : resolveDatum d = Except.error e) : e ≠ "" := by
  rw [resolveDatum.eq_def] at h
  repeat' split at h
  all_goals first
  | (injection h with he; rw [← he]; exact append_ne_empty _ _ (by decide))
  | simp at h

theorem resolveUnit_error_nonempty {u : Option String} {e : String}
    (h : resolveUnit u = Except.error e) : e ≠ "" := by
  rw [resolveUnit.eq_def] at h
  repeat' split at h
  all_goals first
  | (injection h with he; rw [← he]; exact append_ne_empty _ _ (by decide))
  | simp at h

theorem resolveUnitV_error_nonempty {u : Option String} {dflt : ℚ} {e : String}
    (h : resolveUnitV u dflt = Except.error e) : e ≠ "" := by
  rw [resolveUnitV.eq_def] at h
  repeat' split at h
  all_goals first
  | (injection h with he; rw [← he]; exact append_ne_empty _ _ (by decide))
  | simp at h

theorem mkPJ_error_nonempty {defn : String} {kind : ProjKind} {a b pm : ℚ}
    {ax : String} {kH kV : ℚ} {e : String}
    (h : mkPJ defn kind a b pm ax kH kV = Except.error e) : e ≠ "" := by
  rw [mkPJ] at h
  repeat' split at h
  all_goals first
  | (injection h with he; subst he; decide)
  | simp at h

theorem buildPJ_error_nonempty (defn : String) (r : RawP) (e : String)
    (h : buildPJ defn r = Except.error e) : e ≠ "" := by
  rw [buildPJ.eq_def] at h
  split at h
  · injection h with he
    subst he
    decide
  · split at h
    · rename_i e2 heq
      injection h with he
      rw [← he]
      exact resolveKind_error_nonempty heq
    · split at h
      · rename_i e2 heq
        injection h with he
        rw [← he]
        exact resolveDatum_error_nonempty heq
      · split at h
        · rename_i e2 heq
          injection h with he
          rw [← he]
          exact resolveUnit_error_nonempty heq
        · split at h
          · rename_i e2 heq
            injection h with he
            rw [← he]
            exact resolveUnitV_error_nonempty heq
          · exact mkPJ_error_nonempty h

theorem parse_error_nonempty {s e : String}
    (h : parse s = Except.error e) : e ≠ "" := by
  rw [parse.eq_def] at h
  split at h
  · rename_i e2 heq
    injection h with he
    rw [← he]
    exact foldParams_error_nonempty (tokenize s) {} e2 heq
  · exact buildPJ_error_nonempty s _ e h

theorem foldParams_error_of_malformed :
    ∀ (toks : List (List Char)) (r : RawP),
      (∃ tok ∈ toks, malformedToken tok) →
      ∃ e, foldParams r toks = Except.error e ∧ e ≠ "" := by
  intro toks
  induction toks with
  | nil =>
    intro r hex
    rcases hex with ⟨tok, hmem, _⟩
    exact absurd hmem (by simp)
  | cons t0 rest ih =>
    intro r hex
    rcases hex with ⟨tok, hmem, hmal⟩
    rw [foldParams]
    cases hpt : parseToken t0 with
    | error e =>
      exact ⟨e, rfl, parseToken_error_nonempty t0 e hpt⟩
    | ok kv =>
      rcases kv with ⟨k, v⟩
      cases hak : applyKV r k v with
      | error e2 =>
        refine ⟨e2, ?_, applyKV_error_nonempty r k v e2 hak⟩
        simp only [hpt, hak]
      | ok r2 =>
        rcases List.mem_cons.mp hmem with h1 | h1
        · subst h1
          rcases hmal with hm1 | hm2 | hm3
          · exfalso
            rw [parseToken.eq_def] at hpt
            split at hpt
            · simp at hm1
            · simp at hpt
          · exfalso
            rw [parseToken.eq_def] at hpt
            split at hpt
            · simp only [List.drop_succ_cons, List.drop_zero] at hm2
              rw [hm2] at hpt
              simp at hpt
            · simp at hpt
          · exfalso
            rw [hm3] at hpt
            have heval : parseToken ('+' :: "proj".data)
                = Except.ok ("proj", none) := by decide
            rw [heval] at hpt
            injection hpt with hkv
            rw [Prod.mk.injEq] at hkv
            rcases hkv with ⟨hk, hv⟩
            rw [← hk, ← hv] at hak
            have hred : applyKV r "proj" none
                = Except.error "missing projection operation" := rfl
            rw [hred] at hak
            simp at hak
        · rcases ih r2 ⟨tok, h1, hmal⟩ with ⟨e3, he3, hne3⟩
          refine ⟨e3, ?_, hne3⟩
          simp only [hpt, hak]
          exact he3

/-- C5: universally, every definition string containing a malformed
token (missing `+`, empty key, or the stray unparseable `+proj` token
with no operation) parses to a ParseError carrying a nonempty
human-readable diagnostic, with no handle allocated and the table
unchanged; every construction resolving to an internally inconsistent
ellipsoid (non-positive or inverted axes, e.g. a negative axis) is
likewise rejected with a nonempty diagnostic; and every parse failure
whatsoever carries a nonempty diagnostic and allocates nothing, so the
caller never receives a partially-constructed object. -/
theorem C5_parse_error_no_handle :
    (∀ t s e, parse s = Except.error e →
      e ≠ "" ∧ allocate t s = (t, Except.error e)) ∧
    (∀ t s, (∃ tok ∈ tokenize s, malformedToken tok) →
      ∃ e, parse s = Except.error e ∧ e ≠ "" ∧
        allocate t s = (t, Except.error e)) ∧
    (∀ defn kind a b pm ax kH kV, (a ≤ 0 ∨ b ≤ 0 ∨ a < b) →
      ∃ e, mkPJ defn kind a b pm ax kH kV = Except.error e ∧ e ≠ "") ∧
    (∃ e, parse "+proj=longlat +a=-1" = Except.error e ∧ e ≠ "") := by
  refine ⟨?_, ?_, ?_, ?_⟩
  · intro t s e hp
    exact ⟨parse_error_nonempty hp, by rw [allocate, hp]⟩
  · intro t s hex
    rcases foldParams_error_of_malformed (tokenize s) {} hex with ⟨e, he, hne⟩
    have hp : parse s = Except.error e := by rw [parse, he]
    exact ⟨e, hp, hne, by rw [allocate, hp]⟩
  · intro defn kind a b pm ax kH kV hbad
    rw [mkPJ]
    by_cases h1 : a ≤ 0
    · rw [if_pos h1]
      exact ⟨_, rfl, by decide⟩
    · rw [if_neg h1]
      by_cases h2 : b ≤ 0
      · rw [if_pos h2]
        exact ⟨_, rfl, by decide⟩
      · rw [if_neg h2]
        by_cases h3 : a < b
        · rw [if_pos h3]
          exact ⟨_, rfl, by decide⟩
        · rcases hbad with hb | hb | hb
          · exact absurd hb h1
          · exact absurd hb h2
          · exact absurd hb h3
  · exact ⟨"semi-major axis is not positive", by decide, by decide⟩

/-- C5 witness: the theorem applied to the stray `+proj` definition, to
a definition containing a token missing its `+`, and to a negative
semi-major axis reaching the ellipsoid validation. -/
theorem C5_parse_error_no_handle_witness :
    (("missing projection operation" : String) ≠ "" ∧
      allocate emptyTable "+proj"
        = (emptyTable, Except.error "missing projection operation")) ∧
    (∃ e, parse "proj=merc" = Except.error e ∧ e ≠ "" ∧
      allocate emptyTable "proj=merc" = (emptyTable, Except.error e)) ∧
    (∃ e, mkPJ "+proj=longlat +a=-1" ProjKind.longlat (-1) 6378137 0 "enu" 1 1
        = Except.error e ∧ e ≠ "") :=
  ⟨C5_parse_error_no_handle.1 emptyTable "+proj" "missing projection operation"
      (by decide),
   C5_parse_error_no_handle.2.1 emptyTable "proj=merc"
      ⟨"proj=merc".data, by decide, by decide⟩,
   C5_parse_error_no_handle.2.2.1 "+proj=longlat +a=-1" ProjKind.longlat (-1)
      6378137 0 "enu" 1 1 (Or.inl (by norm_num))⟩


/- ### C2: geometric parameters are validated at construction -/

theorem mkPJ_good {defn : String} {kind : ProjKind} {a b pm : ℚ} {ax : String}
    {kH kV : ℚ} {pj : PJ}
    (hok : mkPJ defn kind a b pm ax kH kV = Except.ok pj) :
    0 ≤ pj.es ∧ pj.es < 1 ∧ 0 < pj.a := by
  rw [mkPJ] at hok
  split at hok
  · exact absurd hok (by simp)
  · split at hok
    · exact absurd hok (by simp)
    · split at hok
      · exact absurd hok (by simp)
      · split at hok
        · rename_i h1 h2 h3 h4
          cases hok
          exact ⟨h4.1, h4.2, lt_of_not_le h1⟩
        · exact absurd hok (by simp)

theorem buildPJ_good {defn : String} {r : RawP} {pj : PJ}
    (hok : buildPJ defn r = Except.ok pj) :
    0 ≤ pj.es ∧ pj.es < 1 ∧ 0 < pj.a := by
  rw [buildPJ] at hok
  split at hok
  · exact absurd hok (by simp)
  · split at hok
    · exact absurd hok (by simp)
    · split at hok
      · exact absurd hok (by simp)
      · split at hok
        · exact absurd hok (by simp)
        · split at hok
          · exact absurd hok (by simp)
          · exact mkPJ_good hok

theorem parse_good {s : String} {pj : PJ}
    (hok : parse s = Except.ok pj) :
    0 ≤ pj.es ∧ pj.es < 1 ∧ 0 < pj.a := by
  rw [parse] at hok
  split at hok
  · exact absurd hok (by simp)
  · exact buildPJ_good hok

/-- Every entry of a table satisfies the geometric invariant. -/
def invT (t : Table) : Prop :=
  ∀ p ∈ t.entries, 0 ≤ p.2.pj.es ∧ p.2.pj.es < 1 ∧ 0 < p.2.pj.a

theorem invT_allocate (t : Table) (s : String) (h : invT t) :
    invT (allocate t s).1 := by
  rw [allocate]
  cases hp : parse s with
  | error e => exact h
  | ok pj =>
    intro p hp2
    rcases List.mem_cons.mp hp2 with h1 | h1
    · rw [h1]
      exact parse_good hp
    · exact h p h1

theorem invT_allocGeo (t : Table) (hh : Nat) (h : invT t) :
    invT (allocateGeographic t hh).1 := by
  rw [allocateGeographic]
  cases hx : lookupEntry t.entries hh with
  | none => exact h
  | some e =>
    intro p hp2
    rcases List.mem_cons.mp hp2 with h1 | h1
    · rw [h1]
      exact h (hh, e) (lookupEntry_mem t.entries hh e hx)
    · exact h p h1

theorem invT_release (t : Table) (hh : Nat) (h : invT t) :
    invT (release t hh) := by
  intro p hp
  exact h p (removeHandle_subset t.entries hh p hp)

theorem setErr_mem (l : List (Nat × Entry)) (h : Nat) (m : String)
    (p : Nat × Entry) (hp : p ∈ setErr l h m) :
    ∃ e0, (p.1, e0) ∈ l ∧ e0.pj = p.2.pj := by
  induction l with
  | nil => exact absurd hp (by simp [setErr])
  | cons q r ih =>
    rw [setErr] at hp
    by_cases hq : q.1 = h
    · rw [if_pos hq] at hp
      rcases List.mem_cons.mp hp with h1 | h1
      · refine ⟨q.2, ?_, by rw [h1]⟩
        rw [h1]
        exact List.mem_cons_self q r
      · exact ⟨p.2, List.mem_cons_of_mem q h1, rfl⟩
    · rw [if_neg hq] at hp
      rcases List.mem_cons.mp hp with h1 | h1
      · exact ⟨p.2, by rw [h1]; exact List.mem_cons_self q r, rfl⟩
      · rcases ih h1 with ⟨e0, he0, hpj⟩
        exact ⟨e0, List.mem_cons_of_mem q he0, hpj⟩

theorem invT_recordErr (t : Table) (hh : Nat) (m : String) (h : invT t) :
    invT (recordErr t hh m) := by
  intro p hp
  rcases setErr_mem t.entries hh m p hp with ⟨e0, he0, hpj⟩
  rw [← hpj]
  exact h (p.1, e0) he0

theorem transformOp_table (t : Table) (hs ht d : Nat) (buf : List ℚ)
    (off cnt : Nat) :
    (transformOp t hs ht d buf off cnt).1 = t ∨
    (transformOp t hs ht d buf off cnt).1 = recordErr t hs domainErrorMessage := by
  rw [transformOp]
  split
  · exact Or.inl rfl
  · split
    · split
      · exact Or.inl rfl
      · dsimp only
        split
        · exact Or.inr rfl
        · exact Or.inl rfl
    · exact Or.inl rfl

theorem invT_transform (t : Table) (hs ht d : Nat) (buf : List ℚ)
    (off cnt : Nat) (h : invT t) :
    invT (transformOp t hs ht d buf off cnt).1 := by
  rcases transformOp_table t hs ht d buf off cnt with he | he
  · rw [he]; exact h
  · rw [he]; exact invT_recordErr t hs domainErrorMessage h

theorem invT_runOps (ops : List Op) : invT (runOps ops) := by
  have key : ∀ (l : List Op) (t : Table), invT t → invT (List.foldl applyOp t l) := by
    intro l
    induction l with
    | nil => intro t ht; exact ht
    | cons op rest ih =>
      intro t ht
      apply ih
      cases op with
      | alloc s => exact invT_allocate t s ht
      | allocGeo hh => exact invT_allocGeo t hh ht
      | rel hh => exact invT_release t hh ht
      | trans hs ht2 d buf off cnt => exact invT_transform t hs ht2 d buf off cnt ht
  exact key ops emptyTable (by intro p hp; exact absurd hp (by simp [emptyTable]))

/-- C2: in every registry state reachable by any sequence of engine
operations from the empty registry — so throughout every object's
lifetime, all geometric parameters being immutable in the model — every
live projection object has `0 ≤ eccentricitySquared < 1` and a strictly
positive semi-major axis. -/
theorem C2_parameters_invariant (ops : List Op) (h : Nat) (pj : PJ)
    (hl : lookupPJ (runOps ops) h = some pj) :
    0 ≤ getEccentricitySquared pj ∧ getEccentricitySquared pj < 1 ∧
    0 < getSemiMajorAxis pj := by
  rw [lookupPJ] at hl
  cases hx : lookupEntry (runOps ops).entries h with
  | none => rw [hx] at hl; exact absurd hl (by simp)
  | some e =>
    rw [hx] at hl
    have he : e.pj = pj := by simpa using hl
    rw [← he]
    exact invT_runOps ops (h, e) (lookupEntry_mem _ h e hx)

/-- C2 witness: the invariant read off after allocating the geographic
WGS84 object. -/
theorem C2_parameters_invariant_witness :
    lookupPJ (runOps [Op.alloc defLonglat]) 0 = some (pjOf defLonglat) ∧
    (0 ≤ getEccentricitySquared (pjOf defLonglat) ∧
     getEccentricitySquared (pjOf defLonglat) < 1 ∧
     0 < getSemiMajorAxis (pjOf defLonglat)) :=
  ⟨by decide,
   C2_parameters_invariant [Op.alloc defLonglat] 0 (pjOf defLonglat) (by decide)⟩

/- ### Batch-loop lemmas -/

theorem setSlice_length (buf : List ℚ) :
    ∀ (pos : Nat) (vs : List ℚ), (setSlice buf pos vs).length = buf.length := by
  induction buf with
  | nil => intro pos vs; rfl
  | cons b bs ih =>
    intro pos vs
    cases pos with
    | zero =>
      cases vs with
      | nil => rfl
      | cons v vs2 => simp [setSlice, ih 0 vs2]
    | succ n => simp [setSlice, ih n vs]

theorem applyTuple_length (A B : PJ) (d : Nat) (tup : List ℚ)
    (h : tup.length = d) : ((applyTuple A B d tup).2).length = d := by
  rcases hT : tupTrans A B (tup.headD 0) ((tup.drop 1).headD 0)
      ((tup.drop 2).headD 0) with _ | ⟨x2, y2, z2⟩
  · rw [applyTuple]
    rw [hT]
    simp only [List.length_append, List.length_replicate, List.length_drop]
    omega
  · rw [applyTuple]
    rw [hT]
    simp only [List.length_append, List.length_take, List.length_drop,
      List.length_cons, List.length_nil]
    omega

theorem setSlice_drop_ge :
    ∀ (buf : List ℚ) (pos k : Nat) (vs : List ℚ), vs.length ≤ k →
      (setSlice buf pos vs).drop (pos + k) = buf.drop (pos + k) := by
  intro buf
  induction buf with
  | nil => intro pos k vs h; rfl
  | cons b bs ih =>
    intro pos k vs h
    cases pos with
    | zero =>
      cases vs with
      | nil => rfl
      | cons v vs2 =>
        cases k with
        | zero => exact absurd h (by simp)
        | succ k2 =>
          simp only [setSlice, Nat.zero_add, List.drop_succ_cons]
          have := ih 0 k2 vs2 (by simpa using h)
          simpa using this
    | succ p =>
      simp only [setSlice]
      have hh : (p + 1) + k = (p + k) + 1 := by omega
      rw [hh, List.drop_succ_cons, List.drop_succ_cons]
      exact ih p k vs h

theorem runTuples_flag (A B : PJ) (d : Nat) :
    ∀ (cnt : Nat) (buf : List ℚ) (pos : Nat),
      pos + cnt * d ≤ buf.length →
      (∃ i, i < cnt ∧
        (applyTuple A B d ((buf.drop (pos + i * d)).take d)).1 = false) →
      (runTuples A B d buf pos cnt).2 = true := by
  intro cnt
  induction cnt with
  | zero =>
    intro buf pos hb hex
    rcases hex with ⟨i, hi, _⟩
    exact absurd hi (Nat.not_lt_zero i)
  | succ c ih =>
    intro buf pos hb hex
    rcases hex with ⟨i, hi, hf⟩
    have hb2 : pos + d + c * d ≤ buf.length := by
      have e : pos + (c + 1) * d = pos + d + c * d := by ring
      rw [← e]
      exact hb
    have hposd : pos + d ≤ buf.length := le_trans (Nat.le_add_right _ _) hb2
    have hlen : ((buf.drop pos).take d).length = d := by
      rw [List.length_take, List.length_drop]
      omega
    rw [runTuples]
    dsimp only
    cases i with
    | zero =>
      have hf2 : (applyTuple A B d ((buf.drop pos).take d)).1 = false := by
        simpa using hf
      rw [hf2]
      simp
    | succ j =>
      have hout : ((applyTuple A B d ((buf.drop pos).take d)).2).length = d :=
        applyTuple_length A B d _ hlen
      have hdrop :
          (setSlice buf pos (applyTuple A B d ((buf.drop pos).take d)).2).drop
              (pos + (d + j * d))
            = buf.drop (pos + (d + j * d)) := by
        apply setSlice_drop_ge
        rw [hout]
        exact Nat.le_add_right d (j * d)
      have hf2 :
          (applyTuple A B d
            (((setSlice buf pos (applyTuple A B d ((buf.drop pos).take d)).2).drop
              ((pos + d) + j * d)).take d)).1 = false := by
        have e1 : pos + d + j * d = pos + (d + j * d) := by ring
        have e2 : pos + (j + 1) * d = pos + (d + j * d) := by ring
        rw [e2] at hf
        rw [e1, hdrop]
        exact hf
      have hrec :
          (runTuples A B d
            (setSlice buf pos (applyTuple A B d ((buf.drop pos).take d)).2)
            (pos + d) c).2 = true := by
        apply ih
        · rw [setSlice_length]
          exact hb2
        · exact ⟨j, by omega, hf2⟩
      rw [hrec]
      simp

/- ### C6: partial success is reported through the status -/

/-- C6: `transform` returns a `Status` value, and whenever a batch is
partially successful — at least one tuple's transform failed with a
domain error while at least one other tuple succeeded — the failure is
communicated through the returned status (`domainError`, which is
distinct from `success`) rather than silently swallowed. -/
theorem C6_partial_success_reported (t : Table) (hs ht d : Nat)
    (buf : List ℚ) (off cnt : Nat) (A B : PJ)
    (hd : ¬ (d = 0 ∨ DIMENSION_MAX < d))
    (hA : lookupPJ t hs = some A) (hB : lookupPJ t ht = some B)
    (hbound : ¬ (buf.length < off + cnt * d))
    (hfail : ∃ i, i < cnt ∧
      (applyTuple A B d ((buf.drop (off + i * d)).take d)).1 = false)
    (hok : ∃ j, j < cnt ∧
      (applyTuple A B d ((buf.drop (off + j * d)).take d)).1 = true) :
    (transformOp t hs ht d buf off cnt).2.1 = Status.domainError ∧
    Status.domainError ≠ Status.success := by
  refine ⟨?_, by decide⟩
  obtain ⟨eA, heA, hpjA⟩ : ∃ e, lookupEntry t.entries hs = some e ∧ e.pj = A := by
    rw [lookupPJ] at hA
    cases hx : lookupEntry t.entries hs with
    | none => rw [hx] at hA; exact absurd hA (by simp)
    | some e => rw [hx] at hA; exact ⟨e, rfl, by simpa using hA⟩
  obtain ⟨eB, heB, hpjB⟩ : ∃ e, lookupEntry t.entries ht = some e ∧ e.pj = B := by
    rw [lookupPJ] at hB
    cases hx : lookupEntry t.entries ht with
    | none => rw [hx] at hB; exact absurd hB (by simp)
    | some e => rw [hx] at hB; exact ⟨e, rfl, by simpa using hB⟩
  simp only [transformOp, heA, heB]
  rw [if_neg hd, if_neg hbound]
  have hflag : (runTuples eA.pj eB.pj d buf off cnt).2 = true := by
    rw [hpjA, hpjB]
    exact runTuples_flag A B d cnt buf off (Nat.le_of_not_lt hbound) hfail
  rw [hflag]
  rfl

/-- C6 witness: a two-tuple batch in which the first tuple `(0, 0)`
succeeds and the second tuple `(0, 100)` fails on the Mercator domain,
reported as `domainError`. -/
theorem C6_partial_success_reported_witness :
    (transformOp twoTable 0 1 2 [0, 0, 0, 100] 0 2).2.1 = Status.domainError ∧
    Status.domainError ≠ Status.success :=
  C6_partial_success_reported twoTable 0 1 2 [0, 0, 0, 100] 0 2
    (pjOf defLonglat) (pjOf defMerc) (by decide) (by decide) (by decide)
    (by decide) ⟨1, by decide, by decide⟩ ⟨0, by decide, by decide⟩

/- ### C9: the per-handle error context -/

theorem setErr_lookup (l : List (Nat × Entry)) (h : Nat) (m : String)
    (e : Entry) (hl : lookupEntry l h = some e) :
    lookupEntry (setErr l h m) h = some { e with err := m } := by
  induction l with
  | nil => exact absurd hl (by simp [lookupEntry])
  | cons p r ih =>
    rw [lookupEntry] at hl
    by_cases hp : p.1 = h
    · rw [if_pos hp] at hl
      have he : p.2 = e := by simpa using hl
      rw [setErr, if_pos hp, lookupEntry, if_pos hp, he]
    · rw [if_neg hp] at hl
      rw [setErr, if_neg hp, lookupEntry, if_neg hp]
      exact ih hl

/-- C9: `getLastError` returns the most recent diagnostic recorded for a
handle, or the empty sentinel string if none has ever been recorded: a
handle freshly created by `allocate` or by `allocateGeographic` reads
the empty string, each of those successful operations leaves every other
handle's recorded message unchanged, a transform that returns `success`
leaves every handle's recorded message unchanged (success does not clear
it), and a transform that returns `domainError` overwrites the source
handle's message with the domain diagnostic. -/
theorem C9_last_error :
    (∀ t s t2 h, allocate t s = (t2, Except.ok h) →
      getLastError t2 h = "" ∧
      ∀ h3, h3 ≠ h → getLastError t2 h3 = getLastError t h3) ∧
    (∀ t h t2 h2, allocateGeographic t h = (t2, Except.ok h2) →
      getLastError t2 h2 = "" ∧
      ∀ h3, h3 ≠ h2 → getLastError t2 h3 = getLastError t h3) ∧
    (∀ t hs ht d buf off cnt,
      ((transformOp t hs ht d buf off cnt).2.1 = Status.success →
        ∀ h2, getLastError (transformOp t hs ht d buf off cnt).1 h2
          = getLastError t h2) ∧
      ((transformOp t hs ht d buf off cnt).2.1 = Status.domainError →
        getLastError (transformOp t hs ht d buf off cnt).1 hs
          = domainErrorMessage)) := by
  refine ⟨?_, ?_, ?_⟩
  · intro t s t2 h heq
    rw [allocate] at heq
    cases hp : parse s with
    | error e => rw [hp] at heq; exact absurd heq (by simp)
    | ok pj =>
      rw [hp] at heq
      have h1 := congrArg Prod.fst heq
      have h2 := congrArg Prod.snd heq
      simp only at h1 h2
      have h3 : t.next = h := by simpa using h2
      constructor
      · rw [← h1, ← h3]
        simp [getLastError, lookupEntry]
      · intro h4 hne
        rw [← h1]
        have hne2 : t.next ≠ h4 := by
          rw [h3]
          exact fun hh => hne hh.symm
        simp [getLastError, lookupEntry, hne2]
  · intro t h t2 h2 heq
    rw [allocateGeographic] at heq
    cases hx : lookupEntry t.entries h with
    | none => rw [hx] at heq; exact absurd heq (by simp)
    | some e =>
      rw [hx] at heq
      have h1 := congrArg Prod.fst heq
      have hb := congrArg Prod.snd heq
      simp only at h1 hb
      have h3 : t.next = h2 := by simpa using hb
      constructor
      · rw [← h1, ← h3]
        simp [getLastError, lookupEntry]
      · intro h4 hne
        rw [← h1]
        have hne2 : t.next ≠ h4 := by
          rw [h3]
          exact fun hh => hne hh.symm
        simp [getLastError, lookupEntry, hne2]
  · intro t hs ht d buf off cnt
    constructor
    · rw [transformOp]
      split
      · intro _ h2; rfl
      · split
        · split
          · intro _ h2; rfl
          · dsimp only
            split
            · intro hst; simp at hst
            · intro _ h2; rfl
        · intro _ h2; rfl
    · rw [transformOp]
      split
      · intro hst; simp at hst
      · split
        · split
          · intro hst; simp at hst
          · dsimp only
            split
            · intro hst
              rename_i heqA heqB hbnd hflg
              rw [getLastError, recordErr]
              dsimp only
              rw [setErr_lookup t.entries hs domainErrorMessage _ heqA]
            · intro hst; simp at hst
        · intro hst; simp at hst

/-- C9 witness: handles freshly created by `allocate` and by
`allocateGeographic` read the empty string, both allocations leave the
other handles' messages unchanged, a failing transform records the
domain diagnostic on the source handle, and a successful transform
leaves the target handle's message unchanged. -/
theorem C9_last_error_witness :
    getLastError (allocate emptyTable defLonglat).1 0 = "" ∧
    getLastError (allocateGeographic (allocate emptyTable defMerc).1 0).1 1
      = "" ∧
    getLastError (allocateGeographic (allocate emptyTable defMerc).1 0).1 0
      = getLastError (allocate emptyTable defMerc).1 0 ∧
    getLastError (transformOp twoTable 0 1 2 [0, 100] 0 1).1 0
      = domainErrorMessage ∧
    getLastError (transformOp twoTable 0 1 2 [0, 0] 0 1).1 1
      = getLastError twoTable 1 :=
  ⟨(C9_last_error.1 emptyTable defLonglat (allocate emptyTable defLonglat).1 0
      (by decide)).1,
   (C9_last_error.2.1 (allocate emptyTable defMerc).1 0
      (allocateGeographic (allocate emptyTable defMerc).1 0).1 1 (by decide)).1,
   (C9_last_error.2.1 (allocate emptyTable defMerc).1 0
      (allocateGeographic (allocate emptyTable defMerc).1 0).1 1 (by decide)).2 0
      (by decide),
   (C9_last_error.2.2 twoTable 0 1 2 [0, 100] 0 1).2 (by decide),
   (C9_last_error.2.2 twoTable 0 1 2 [0, 0] 0 1).1 (by decide) 1⟩

/- ### C7 and C8: concrete allocation scenarios -/

/-- C7: after `allocate("+proj=merc +datum=WGS84")` succeeds with
handle 0, `allocateGeographic` on that handle returns the fresh handle 1
whose type is Geographic and whose ellipsoid parameters — semi-major
axis, semi-minor axis and eccentricity squared — equal those of the
original handle's datum. -/
theorem C7_allocate_geographic :
    (allocate emptyTable defMerc).2 = Except.ok 0 ∧
    (allocateGeographic (allocate emptyTable defMerc).1 0).2 = Except.ok 1 ∧
    (lookupPJ (allocateGeographic (allocate emptyTable defMerc).1 0).1 1).map getType
      = some PJType.Geographic ∧
    (lookupPJ (allocateGeographic (allocate emptyTable defMerc).1 0).1 1).map
        getSemiMajorAxis
      = (lookupPJ (allocateGeographic (allocate emptyTable defMerc).1 0).1 0).map
        getSemiMajorAxis ∧
    (lookupPJ (allocateGeographic (allocate emptyTable defMerc).1 0).1 1).map
        getSemiMinorAxis
      = (lookupPJ (allocateGeographic (allocate emptyTable defMerc).1 0).1 0).map
        getSemiMinorAxis ∧
    (lookupPJ (allocateGeographic (allocate emptyTable defMerc).1 0).1 1).map
        getEccentricitySquared
      = (lookupPJ (allocateGeographic (allocate emptyTable defMerc).1 0).1 0).map
        getEccentricitySquared := by
  decide

/-- C8: after `allocate("+proj=longlat +datum=WGS84")` succeeds with
handle 0, `getType` returns the Geographic variant and
`getSemiMajorAxis` returns exactly WGS84's defined value 6378137. -/
theorem C8_longlat_wgs84 :
    (allocate emptyTable defLonglat).2 = Except.ok 0 ∧
    (lookupPJ (allocate emptyTable defLonglat).1 0).map getType
      = some PJType.Geographic ∧
    (lookupPJ (allocate emptyTable defLonglat).1 0).map getSemiMajorAxis
      = some 6378137 := by
  decide

/- ### C10: the native transform returns void -/

/-- C10: the native `transform` method is declared to return void — its
JNI descriptor, transcribed from the header, has return descriptor `V`
and exactly the five argument descriptors (target object, dimension,
double array, offset, count), so no per-call status value exists in the
native signature — and in the modelled engine a failing call delivers
its signal out-of-band: the status is not `success` and the diagnostic
is retrievable from the handle's error context. -/
theorem C10_native_void_signature :
    returnDescriptor transformJniSignature = "V" ∧
    argsDescriptor transformJniSignature
      = String.join transformParamTypes ∧
    (transformOp twoTable 0 1 2 [0, 100] 0 1).2.1 ≠ Status.success ∧
    getLastError (transformOp twoTable 0 1 2 [0, 100] 0 1).1 0 ≠ "" := by
  decide

end SisGdal
